import Mathlib

/-!
Verification of the per-frame simulation core of the Rivik racing demo
(src/racing/src/main.rs). The vehicle dynamics, camera smoothing, transform
write and input handling of `App::update` / `App::on_event` are embedded
shallowly over the real numbers (the source uses `f32`; real arithmetic is
the idealization the specification reasons in). `glam` matrices and vectors
are modelled as `Matrix (Fin 4) (Fin 4) ℝ` and component structures.
-/

namespace Racing

/-- glam `Vec3`: three real components. -/
structure Vec3 where
  x : ℝ
  y : ℝ
  z : ℝ

/-- glam `Vec4`: four real components. -/
structure Vec4 where
  x : ℝ
  y : ℝ
  z : ℝ
  w : ℝ

instance : Add Vec3 := ⟨fun a b => ⟨a.x + b.x, a.y + b.y, a.z + b.z⟩⟩
instance : Sub Vec3 := ⟨fun a b => ⟨a.x - b.x, a.y - b.y, a.z - b.z⟩⟩
instance : Add Vec4 := ⟨fun a b => ⟨a.x + b.x, a.y + b.y, a.z + b.z, a.w + b.w⟩⟩

/-- glam `Vec3 * f32`: componentwise scaling. -/
def Vec3.mulScalar (v : Vec3) (t : ℝ) : Vec3 := ⟨v.x * t, v.y * t, v.z * t⟩

/-- glam `Vec3::lerp(self, rhs, s) = self + (rhs - self) * s`. -/
def Vec3.lerp (a b : Vec3) (t : ℝ) : Vec3 := a + (b - a).mulScalar t

/-- glam `Vec3::dot`. -/
def Vec3.dot (a b : Vec3) : ℝ := a.x * b.x + a.y * b.y + a.z * b.z

/-- glam `Vec3::cross`. -/
def Vec3.cross (a b : Vec3) : Vec3 :=
  ⟨a.y * b.z - a.z * b.y, a.z * b.x - a.x * b.z, a.x * b.y - a.y * b.x⟩

/-- glam `Vec3::normalize` (division by the Euclidean length). -/
noncomputable def Vec3.normalize (v : Vec3) : Vec3 :=
  let len := Real.sqrt (v.x ^ 2 + v.y ^ 2 + v.z ^ 2)
  ⟨v.x / len, v.y / len, v.z / len⟩

/-- glam `Vec4::xyz()` (the `Vec4Swizzles` swizzle used in `update`). -/
def Vec4.xyz (v : Vec4) : Vec3 := ⟨v.x, v.y, v.z⟩

/-- glam `Mat4`, modelled as the mathematical 4x4 real matrix of the linear
map it represents (glam stores columns; the represented map is the same). -/
abbrev Mat4 := Matrix (Fin 4) (Fin 4) ℝ

/-- glam `Mat4::from_translation(t)`. -/
def from_translation (t : Vec3) : Mat4 :=
  Matrix.of ![![1, 0, 0, t.x], ![0, 1, 0, t.y], ![0, 0, 1, t.z], ![0, 0, 0, 1]]

/-- glam `Mat4::from_rotation_y(angle)`: right-handed rotation about the y
axis, as the matrix acting on column vectors. -/
noncomputable def from_rotation_y (angle : ℝ) : Mat4 :=
  Matrix.of ![![Real.cos angle, 0, Real.sin angle, 0],
              ![0, 1, 0, 0],
              ![-Real.sin angle, 0, Real.cos angle, 0],
              ![0, 0, 0, 1]]

/-- glam `Mat4 * Vec4`: matrix-vector product. -/
def mulVec4 (m : Mat4) (v : Vec4) : Vec4 :=
  let f := m.mulVec ![v.x, v.y, v.z, v.w]
  ⟨f 0, f 1, f 2, f 3⟩

/-- glam `Mat4::look_at_rh(eye, center, up)` (via `look_to_rh` with
direction `center - eye`). -/
noncomputable def look_at_rh (eye center up : Vec3) : Mat4 :=
  let f := (center - eye).normalize
  let s := (f.cross up).normalize
  let u := s.cross f
  Matrix.of ![![s.x, s.y, s.z, -(eye.dot s)],
              ![u.x, u.y, u.z, -(eye.dot u)],
              ![-f.x, -f.y, -f.z, eye.dot f],
              ![0, 0, 0, 1]]

/-- Constant `ACC` from `App::update`. -/
noncomputable def ACC : ℝ := 0.05

/-- Constant `DECEL` from `App::update`. -/
noncomputable def DECEL : ℝ := 0.07

/-- Constant `STEER` from `App::update`. -/
noncomputable def STEER : ℝ := 0.02

/-- Constant `MAX` (max speed) from `App::update`. -/
noncomputable def MAX : ℝ := 0.23

/-- Constant `RESIST` (rolling resistance) from `App::update`. -/
noncomputable def RESIST : ℝ := 0.02

/-- The `App` state struct from main.rs. The `car : Handle<Mesh>` field is an
opaque handle into the engine scene graph and carries no data of its own; it
is omitted here (the scene-graph side is modelled separately as `CarScene`).
All other fields are kept with their source names, including the `positon`
typo. -/
structure App where
  speed : ℝ
  rotation : ℝ
  positon : Vec4
  cam_position : Vec3
  color : String
  last_color : String
  gas : Bool
  brake : Bool
  left : Bool
  right : Bool

/-- Speed before the `max(0.0)` clamp: the gas/friction branch followed by
the independent brake branch, exactly as the two `if`s in `App::update`. -/
noncomputable def speedPreClamp (gas brake : Bool) (speed : ℝ) : ℝ :=
  let s1 := if gas then speed + (MAX - speed) * ACC else speed - speed * RESIST
  if brake then s1 - s1 * DECEL else s1

/-- The full per-tick speed update including the clamp
`self.speed = self.speed.max(0.0)`. -/
noncomputable def speedStep (gas brake : Bool) (speed : ℝ) : ℝ :=
  max (speedPreClamp gas brake speed) 0

/-- The local `steer` accumulator of `App::update`: starts at `0.0`, `+= 1.0`
if `left`, `-= 1.0` if `right`. -/
def steerAmount (left right : Bool) : ℝ :=
  ((0 : ℝ) + (if left then 1 else 0)) - (if right then 1 else 0)

/-- Post-tick speed: `speedStep` applied to the current flags and speed. -/
noncomputable def newSpeed (a : App) : ℝ := speedStep a.gas a.brake a.speed

/-- Post-tick heading: `self.rotation += steer * STEER`. -/
noncomputable def newRotation (a : App) : ℝ :=
  a.rotation + steerAmount a.left a.right * STEER

/-- The `velocity` local of `App::update`, built from the post-tick rotation
and speed. -/
noncomputable def velocity (a : App) : Vec4 :=
  ⟨Real.sin (newRotation a) * newSpeed a, 0, Real.cos (newRotation a) * newSpeed a, 0⟩

/-- Post-tick position: `self.positon += velocity`. -/
noncomputable def newPositon (a : App) : Vec4 := a.positon + velocity a

/-- The `local_position` local of `App::update`:
`Mat4::from_translation(positon.xyz()) * Mat4::from_rotation_y(-rotation)`
applied to the homogeneous origin `(0,0,0,1)`. -/
noncomputable def local_position (a : App) : Vec4 :=
  mulVec4 (from_translation (newPositon a).xyz * from_rotation_y (-(newRotation a)))
    ⟨0, 0, 0, 1⟩

/-- The matrix written into the car root transform node:
`Mat4::from_translation(local_position.xyz()) * Mat4::from_rotation_y(rotation)`. -/
noncomputable def written (a : App) : Mat4 :=
  from_translation (local_position a).xyz * from_rotation_y (newRotation a)

/-- The `focus` local of `App::update`: `self.positon.xyz()` after the
position integration. -/
noncomputable def focusPoint (a : App) : Vec3 := (newPositon a).xyz

/-- The desired camera eye before smoothing:
`focus + Vec3::new(sin(rotation) * -2.0, 2.0, cos(rotation) * -2.0)`. -/
noncomputable def desiredEye (a : App) : Vec3 :=
  focusPoint a + ⟨Real.sin (newRotation a) * -2.0, 2.0, Real.cos (newRotation a) * -2.0⟩

/-- Post-tick camera position: `self.cam_position.lerp(eye, 0.06)`. -/
noncomputable def newEye (a : App) : Vec3 := Vec3.lerp a.cam_position (desiredEye a) 0.06

/-- The camera matrix written into the context:
`ctx.camera = Mat4::look_at_rh(eye, focus, Vec3::Y)`. -/
noncomputable def cameraMatrix (a : App) : Mat4 :=
  look_at_rh (newEye a) (focusPoint a) ⟨0, 1, 0⟩

/-- One tick of `App::update`: the new `App` state, the matrix written into
the vehicle root transform node, and the camera matrix written into the
context. -/
noncomputable def update (a : App) : App × Mat4 × Mat4 :=
  (⟨newSpeed a, newRotation a, newPositon a, newEye a,
    a.color, a.last_color, a.gas, a.brake, a.left, a.right⟩,
   written a, cameraMatrix a)

/-- winit `ElementState`. -/
inductive ElementState where
  | Pressed
  | Released
deriving DecidableEq

/-- winit `VirtualKeyCode`, restricted to the keys `on_event` matches on
(`W`, `S`, `A`, `D`), the `Kanji` default used by `unwrap_or`, and two
representatives of the remaining unmapped keys. -/
inductive VirtualKeyCode where
  | W
  | S
  | A
  | D
  | Kanji
  | Space
  | Escape
deriving DecidableEq

/-- The fields of winit `KeyboardInput` that `on_event` reads. -/
structure KeyboardInputData where
  state : ElementState
  virtual_keycode : Option VirtualKeyCode

/-- winit `WindowEvent`, restricted to the keyboard variant `on_event`
matches on and two representatives of the other (ignored) variants. -/
inductive WindowEvent where
  | KeyboardInput (input : KeyboardInputData)
  | Resized
  | CloseRequested

/-- `App::on_event`: maps W/S/A/D press state onto the four input flags;
a missing keycode defaults to `Kanji` (`unwrap_or`), which like every other
key falls into the wildcard arm and changes nothing. -/
def on_event (a : App) (event : WindowEvent) : App :=
  match event with
  | WindowEvent.KeyboardInput input =>
    match input.virtual_keycode.getD VirtualKeyCode.Kanji with
    | VirtualKeyCode.W => { a with gas := decide (input.state = ElementState.Pressed) }
    | VirtualKeyCode.S => { a with brake := decide (input.state = ElementState.Pressed) }
    | VirtualKeyCode.A => { a with left := decide (input.state = ElementState.Pressed) }
    | VirtualKeyCode.D => { a with right := decide (input.state = ElementState.Pressed) }
    | _ => a
  | _ => a

/-- The camera smoothing step of `App::update` with a fixed desired eye `d`:
`cam.lerp(d, 0.06)`. Iterating it models a constant vehicle trajectory. -/
noncomputable def camStep (d c : Vec3) : Vec3 := Vec3.lerp c d 0.06

/-- Euclidean distance between two `Vec3`. -/
noncomputable def dist3 (a b : Vec3) : ℝ :=
  Real.sqrt ((a.x - b.x) ^ 2 + (a.y - b.y) ^ 2 + (a.z - b.z) ^ 2)

/-- Modelled from the spec: the scene-graph state of the vehicle assembly.
The `Node` arena, `Handle`, and `RwLock` plumbing live in the external rivik
engine, not in this repository; per the spec the assembly is one root node
(car body) with four wheel children, each node holding a local matrix, and a
world pose that is the parent world pose composed with the local matrix. -/
structure CarScene where
  body : Mat4
  wheel1 : Mat4
  wheel2 : Mat4
  wheel3 : Mat4
  wheel4 : Mat4

/-- Modelled from the spec: world pose of a child node with local matrix
`local_m` under a parent with world pose `parent` is their composition. -/
def worldPose (parent local_m : Mat4) : Mat4 := parent * local_m

/-- `load_car`: the body root starts with the identity transform (the engine
default for a freshly inserted node, modelled from the spec); the four wheel
children get the literal translation offsets written in `load_car`. -/
noncomputable def load_car : CarScene :=
  ⟨1,
   from_translation ⟨0.587519, 0.300258, -1.08391⟩,
   from_translation ⟨-0.587519, 0.300258, -1.08391⟩,
   from_translation ⟨0.60354, 0.299993, 1.35941⟩,
   from_translation ⟨-0.60354, 0.299993, 1.35941⟩⟩

/-- The effect of one `App::update` tick on the vehicle scene graph: only the
body root transform is rewritten (with the `written` matrix); no wheel local
transform is touched. -/
noncomputable def sceneStep (a : App) (s : CarScene) : CarScene :=
  { s with body := (update a).2.1 }

/-- The vehicle scene graph after a sequence of ticks (one `App` state per
tick) starting from the `load_car` construction. -/
noncomputable def sceneAfter (ticks : List App) : CarScene :=
  List.foldl (fun s a => sceneStep a s) load_car ticks

/-- The initial `App` state built in `App::init` (minus the opaque mesh
handle). -/
noncomputable def initApp : App :=
  ⟨0.0, 0.0, ⟨-6.8, 0.0, 17.0, 1.0⟩, ⟨0, 0, 0⟩, "Neon", "Neon",
   false, false, false, false⟩

@[simp] theorem vec3_add_def (a b : Vec3) :
    a + b = ⟨a.x + b.x, a.y + b.y, a.z + b.z⟩ := rfl

@[simp] theorem vec3_sub_def (a b : Vec3) :
    a - b = ⟨a.x - b.x, a.y - b.y, a.z - b.z⟩ := rfl

@[simp] theorem vec4_add_def (a b : Vec4) :
    a + b = ⟨a.x + b.x, a.y + b.y, a.z + b.z, a.w + b.w⟩ := rfl

/-- Evaluates the `local_position` intermediate: rotating the homogeneous
origin is the identity, and the translation then recovers the position. -/
theorem local_position_eval (a : App) :
    local_position a
      = ⟨(newPositon a).x, (newPositon a).y, (newPositon a).z, 1⟩ := by
  rw [local_position, mulVec4, ← Matrix.mulVec_mulVec]
  simp [from_translation, from_rotation_y, Matrix.mulVec, Matrix.dotProduct,
    Fin.sum_univ_four, Vec4.xyz]

/-- Unfolds the post-tick speed when gas is held and brake released. -/
theorem newSpeed_gas (a : App) (hg : a.gas = true) (hb : a.brake = false) :
    (update a).1.speed = max (a.speed + (MAX - a.speed) * ACC) 0 := by
  simp [update, newSpeed, speedStep, speedPreClamp, hg, hb]

/-- Unfolds the post-tick speed when neither gas nor brake is held. -/
theorem newSpeed_coast (a : App) (hg : a.gas = false) (hb : a.brake = false) :
    (update a).1.speed = max (a.speed - a.speed * RESIST) 0 := by
  simp [update, newSpeed, speedStep, speedPreClamp, hg, hb]

/-- C1: with gas held and brake released, from any speed in `[0, MAX)` one
tick of `update` strictly increases the speed and keeps it strictly below
`MAX` (the exponential approach never reaches it). -/
theorem accel_speed_bounds (a : App) (hg : a.gas = true) (hb : a.brake = false)
    (h0 : 0 ≤ a.speed) (h1 : a.speed < MAX) :
    a.speed < (update a).1.speed ∧ (update a).1.speed < MAX := by
  rw [newSpeed_gas a hg hb]
  have hA : (ACC : ℝ) = 0.05 := rfl
  have hM : (MAX : ℝ) = 0.23 := rfl
  constructor
  · apply lt_max_iff.mpr
    left
    nlinarith [h0, h1]
  · apply max_lt
    · nlinarith [h0, h1]
    · rw [hM]; norm_num

/-- Witness for C1 at the initial state with gas held. -/
theorem accel_speed_bounds_witness :
    ({ initApp with gas := true } : App).speed
        < (update { initApp with gas := true }).1.speed ∧
      (update { initApp with gas := true }).1.speed < MAX :=
  accel_speed_bounds { initApp with gas := true } rfl rfl
    (by norm_num [initApp]) (by norm_num [initApp, MAX])

/-- C2: with neither gas nor brake held, one tick of `update` strictly
decreases any positive speed while keeping it non-negative, and speed `0` is
a fixed point of the rolling-resistance decay. -/
theorem coast_decay (a : App) (hg : a.gas = false) (hb : a.brake = false) :
    (0 < a.speed → (update a).1.speed < a.speed ∧ 0 ≤ (update a).1.speed) ∧
      (a.speed = 0 → (update a).1.speed = 0) := by
  rw [newSpeed_coast a hg hb]
  have hR : (RESIST : ℝ) = 0.02 := rfl
  constructor
  · intro hpos
    constructor
    · apply max_lt
      · nlinarith [hpos]
      · exact hpos
    · exact le_max_right _ _
  · intro hzero
    rw [hzero]
    simp

/-- Witness for C2 at speed `0.1` (decays) and at the initial speed `0`
(fixed point). -/
theorem coast_decay_witness :
    ((update { initApp with speed := 0.1 }).1.speed < 0.1 ∧
        0 ≤ (update { initApp with speed := 0.1 }).1.speed) ∧
      (update initApp).1.speed = 0 := by
  refine ⟨?_, (coast_decay initApp rfl rfl).2 (by norm_num [initApp])⟩
  have h := (coast_decay { initApp with speed := 0.1 } rfl rfl).1 (by norm_num)
  simpa using h

/-- C3: the clamp `speed.max(0.0)` keeps the post-tick speed non-negative for
every combination of the four input flags and every starting speed. -/
theorem speed_nonneg (a : App) (h0 : 0 ≤ a.speed) : 0 ≤ (update a).1.speed := by
  have hs : (update a).1.speed = max (speedPreClamp a.gas a.brake a.speed) 0 := by
    simp [update, newSpeed, speedStep]
  rw [hs]
  exact le_max_right _ _

/-- Witness for C3 at the initial state. -/
theorem speed_nonneg_witness : 0 ≤ (update initApp).1.speed :=
  speed_nonneg initApp (by norm_num [initApp])

/-- C4: with gas and brake both held, the two speed updates stack in order:
the pre-clamp speed is `(1 - DECEL) * (speed + (MAX - speed) * ACC)` and the
post-tick speed is that value clamped at `0`. -/
theorem gas_brake_stack (a : App) (hg : a.gas = true) (hb : a.brake = true) :
    speedPreClamp a.gas a.brake a.speed
        = (1 - DECEL) * (a.speed + (MAX - a.speed) * ACC) ∧
      (update a).1.speed
        = max ((1 - DECEL) * (a.speed + (MAX - a.speed) * ACC)) 0 := by
  have hpre : speedPreClamp a.gas a.brake a.speed
      = (1 - DECEL) * (a.speed + (MAX - a.speed) * ACC) := by
    simp [speedPreClamp, hg, hb]
    ring
  refine ⟨hpre, ?_⟩
  have hs : (update a).1.speed = max (speedPreClamp a.gas a.brake a.speed) 0 := by
    simp [update, newSpeed, speedStep]
  rw [hs, hpre]

/-- Witness for C4 at the initial state with gas and brake held. -/
theorem gas_brake_stack_witness :
    speedPreClamp ({ initApp with gas := true, brake := true } : App).gas
          ({ initApp with gas := true, brake := true } : App).brake
          ({ initApp with gas := true, brake := true } : App).speed
        = (1 - DECEL) * (({ initApp with gas := true, brake := true } : App).speed
            + (MAX - ({ initApp with gas := true, brake := true } : App).speed) * ACC) ∧
      (update { initApp with gas := true, brake := true }).1.speed
        = max ((1 - DECEL) * (({ initApp with gas := true, brake := true } : App).speed
            + (MAX - ({ initApp with gas := true, brake := true } : App).speed) * ACC)) 0 :=
  gas_brake_stack { initApp with gas := true, brake := true } rfl rfl

/-- C5: with steer-left and steer-right both held, the two steer
contributions cancel and the heading is unchanged by the tick. -/
theorem steer_cancel (a : App) (hl : a.left = true) (hr : a.right = true) :
    (update a).1.rotation = a.rotation := by
  simp [update, newRotation, steerAmount, hl, hr]

/-- Witness for C5 at the initial state with both steer keys held. -/
theorem steer_cancel_witness :
    (update { initApp with left := true, right := true }).1.rotation
      = ({ initApp with left := true, right := true } : App).rotation :=
  steer_cancel { initApp with left := true, right := true } rfl rfl

/-- One camera smoothing step contracts the distance to the desired eye by
exactly the factor `1 - 0.06 = 0.94`. -/
theorem camStep_dist (c d : Vec3) : dist3 (camStep d c) d = 0.94 * dist3 c d := by
  have hx : (camStep d c).x - d.x = 0.94 * (c.x - d.x) := by
    simp [camStep, Vec3.lerp, Vec3.mulScalar]
    ring
  have hy : (camStep d c).y - d.y = 0.94 * (c.y - d.y) := by
    simp [camStep, Vec3.lerp, Vec3.mulScalar]
    ring
  have hz : (camStep d c).z - d.z = 0.94 * (c.z - d.z) := by
    simp [camStep, Vec3.lerp, Vec3.mulScalar]
    ring
  rw [dist3, hx, hy, hz]
  have hsum : (0.94 * (c.x - d.x)) ^ 2 + (0.94 * (c.y - d.y)) ^ 2
        + (0.94 * (c.z - d.z)) ^ 2
      = (0.94 : ℝ) ^ 2 * ((c.x - d.x) ^ 2 + (c.y - d.y) ^ 2 + (c.z - d.z) ^ 2) := by
    ring
  rw [hsum, Real.sqrt_mul (by norm_num : (0 : ℝ) ≤ (0.94 : ℝ) ^ 2),
    Real.sqrt_sq (by norm_num : (0 : ℝ) ≤ (0.94 : ℝ))]
  rfl

/-- C7: each tick smooths the camera as
`new_eye = previous_eye + 0.06 * (desired - previous_eye)` with the desired
eye placed behind and above the post-tick vehicle position, and iterating the
smoothing step toward a fixed desired eye shrinks the eye-to-desired distance
to `0.94 ^ n` times the initial distance after `n` ticks, never reaching the
desired position in one tick. -/
theorem camera_smoothing :
    (∀ a : App,
        (update a).1.cam_position
          = a.cam_position
              + (((update a).1.positon.xyz
                    + ⟨Real.sin ((update a).1.rotation) * -2.0, 2.0,
                       Real.cos ((update a).1.rotation) * -2.0⟩)
                  - a.cam_position).mulScalar 0.06) ∧
      (∀ a : App, (update a).1.cam_position = camStep (desiredEye a) a.cam_position) ∧
      ∀ (c d : Vec3) (n : ℕ),
        dist3 ((camStep d)^[n] c) d = 0.94 ^ n * dist3 c d := by
  refine ⟨fun a => rfl, fun a => rfl, fun c d n => ?_⟩
  induction n generalizing c with
  | zero => simp
  | succ n ih =>
    rw [Function.iterate_succ_apply, ih (camStep d c), camStep_dist]
    ring

/-- C6: the matrix written into the vehicle root transform node equals
`translation(position) * rotation_y(heading)` for the post-tick position and
heading; the `local_position` detour contributes nothing: its `xyz` equals
the post-tick position, and (for a homogeneous position, `w = 1`) the whole
`Vec4` equals the post-tick position. -/
theorem transform_write (a : App) :
    (update a).2.1
        = from_translation ((update a).1.positon.xyz)
            * from_rotation_y ((update a).1.rotation) ∧
      (local_position a).xyz = (update a).1.positon.xyz ∧
      (a.positon.w = 1 → local_position a = (update a).1.positon) := by
  have hxyz : (local_position a).xyz = (newPositon a).xyz := by
    rw [local_position_eval]
    rfl
  refine ⟨?_, hxyz, ?_⟩
  · show written a = _
    rw [written, hxyz]
    rfl
  · intro hw
    rw [local_position_eval]
    show _ = newPositon a
    have hw4 : (newPositon a).w = 1 := by
      simp [newPositon, velocity, hw]
    cases hp : newPositon a with
    | mk x y z w =>
      rw [hp] at hw4
      simp_all

/-- Witness for C6 at the initial state (whose position has `w = 1`). -/
theorem transform_write_witness :
    (update initApp).2.1
        = from_translation ((update initApp).1.positon.xyz)
            * from_rotation_y ((update initApp).1.rotation) ∧
      local_position initApp = (update initApp).1.positon := by
  have h := transform_write initApp
  exact ⟨h.1, h.2.2 (by norm_num [initApp])⟩

/-- A tick sequence never touches any wheel local transform. -/
theorem foldl_wheels_fixed (ticks : List App) (s : CarScene) :
    (List.foldl (fun t a => sceneStep a t) s ticks).wheel1 = s.wheel1 ∧
      (List.foldl (fun t a => sceneStep a t) s ticks).wheel2 = s.wheel2 ∧
      (List.foldl (fun t a => sceneStep a t) s ticks).wheel3 = s.wheel3 ∧
      (List.foldl (fun t a => sceneStep a t) s ticks).wheel4 = s.wheel4 := by
  induction ticks generalizing s with
  | nil => exact ⟨rfl, rfl, rfl, rfl⟩
  | cons a as ih => exact ih (sceneStep a s)

/-- C8: after any sequence of ticks from the `load_car` construction, each
wheel still carries the fixed local translation offset assigned once in
`load_car`, and its world pose is the body world pose composed with that
fixed offset. -/
theorem wheel_offsets_fixed (ticks : List App) :
    ((sceneAfter ticks).wheel1 = from_translation ⟨0.587519, 0.300258, -1.08391⟩ ∧
        (sceneAfter ticks).wheel2 = from_translation ⟨-0.587519, 0.300258, -1.08391⟩ ∧
        (sceneAfter ticks).wheel3 = from_translation ⟨0.60354, 0.299993, 1.35941⟩ ∧
        (sceneAfter ticks).wheel4 = from_translation ⟨-0.60354, 0.299993, 1.35941⟩) ∧
      (worldPose (sceneAfter ticks).body (sceneAfter ticks).wheel1
          = (sceneAfter ticks).body * from_translation ⟨0.587519, 0.300258, -1.08391⟩ ∧
        worldPose (sceneAfter ticks).body (sceneAfter ticks).wheel2
          = (sceneAfter ticks).body * from_translation ⟨-0.587519, 0.300258, -1.08391⟩ ∧
        worldPose (sceneAfter ticks).body (sceneAfter ticks).wheel3
          = (sceneAfter ticks).body * from_translation ⟨0.60354, 0.299993, 1.35941⟩ ∧
        worldPose (sceneAfter ticks).body (sceneAfter ticks).wheel4
          = (sceneAfter ticks).body * from_translation ⟨-0.60354, 0.299993, 1.35941⟩) := by
  obtain ⟨h1, h2, h3, h4⟩ := foldl_wheels_fixed ticks load_car
  have w1 : (sceneAfter ticks).wheel1 = from_translation ⟨0.587519, 0.300258, -1.08391⟩ := h1
  have w2 : (sceneAfter ticks).wheel2 = from_translation ⟨-0.587519, 0.300258, -1.08391⟩ := h2
  have w3 : (sceneAfter ticks).wheel3 = from_translation ⟨0.60354, 0.299993, 1.35941⟩ := h3
  have w4 : (sceneAfter ticks).wheel4 = from_translation ⟨-0.60354, 0.299993, 1.35941⟩ := h4
  refine ⟨⟨w1, w2, w3, w4⟩, ?_, ?_, ?_, ?_⟩ <;>
    simp only [worldPose, w1, w2, w3, w4]

/-- C9: each mapped key rewrites exactly its one flag to whether the key is
pressed, leaving every other `App` field alone (the structure-update equality
fixes all other fields); unmapped keys, a missing keycode (defaulted to
`Kanji`), and non-keyboard events leave the state untouched. -/
theorem on_event_flags (a : App) (st : ElementState) :
    on_event a (WindowEvent.KeyboardInput ⟨st, some VirtualKeyCode.W⟩)
        = { a with gas := decide (st = ElementState.Pressed) } ∧
      on_event a (WindowEvent.KeyboardInput ⟨st, some VirtualKeyCode.S⟩)
        = { a with brake := decide (st = ElementState.Pressed) } ∧
      on_event a (WindowEvent.KeyboardInput ⟨st, some VirtualKeyCode.A⟩)
        = { a with left := decide (st = ElementState.Pressed) } ∧
      on_event a (WindowEvent.KeyboardInput ⟨st, some VirtualKeyCode.D⟩)
        = { a with right := decide (st = ElementState.Pressed) } ∧
      on_event a (WindowEvent.KeyboardInput ⟨st, some VirtualKeyCode.Kanji⟩) = a ∧
      on_event a (WindowEvent.KeyboardInput ⟨st, some VirtualKeyCode.Space⟩) = a ∧
      on_event a (WindowEvent.KeyboardInput ⟨st, some VirtualKeyCode.Escape⟩) = a ∧
      on_event a (WindowEvent.KeyboardInput ⟨st, none⟩) = a ∧
      on_event a WindowEvent.Resized = a ∧
      on_event a WindowEvent.CloseRequested = a :=
  ⟨rfl, rfl, rfl, rfl, rfl, rfl, rfl, rfl, rfl, rfl⟩

/-- C10: one tick of `update` is a function of the `App` state alone: from
two states agreeing on speed, rotation, position, camera position, and the
four input flags, it produces the same dynamics fields, the same matrix for
the vehicle transform node, and the same camera matrix. -/
theorem update_deterministic (a b : App)
    (hspeed : a.speed = b.speed) (hrot : a.rotation = b.rotation)
    (hpos : a.positon = b.positon) (hcam : a.cam_position = b.cam_position)
    (hgas : a.gas = b.gas) (hbrake : a.brake = b.brake)
    (hleft : a.left = b.left) (hright : a.right = b.right) :
    (update a).1.speed = (update b).1.speed ∧
      (update a).1.rotation = (update b).1.rotation ∧
      (update a).1.positon = (update b).1.positon ∧
      (update a).1.cam_position = (update b).1.cam_position ∧
      (update a).2.1 = (update b).2.1 ∧
      (update a).2.2 = (update b).2.2 := by
  have hns : newSpeed a = newSpeed b := by
    rw [newSpeed, newSpeed, hspeed, hgas, hbrake]
  have hnr : newRotation a = newRotation b := by
    rw [newRotation, newRotation, hrot, hleft, hright]
  have hnp : newPositon a = newPositon b := by
    rw [newPositon, newPositon, velocity, velocity, hpos, hns, hnr]
  have hne : newEye a = newEye b := by
    rw [newEye, newEye, desiredEye, desiredEye, focusPoint, focusPoint,
      hcam, hnp, hnr]
  refine ⟨hns, hnr, hnp, hne, ?_, ?_⟩
  · show written a = written b
    rw [written, written, local_position, local_position, hnp, hnr]
  · show cameraMatrix a = cameraMatrix b
    rw [cameraMatrix, cameraMatrix, focusPoint, focusPoint, hne, hnp]

/-- Witness for C10 at the initial state compared with itself. -/
theorem update_deterministic_witness :
    (update initApp).1.speed = (update initApp).1.speed ∧
      (update initApp).1.rotation = (update initApp).1.rotation ∧
      (update initApp).1.positon = (update initApp).1.positon ∧
      (update initApp).1.cam_position = (update initApp).1.cam_position ∧
      (update initApp).2.1 = (update initApp).2.1 ∧
      (update initApp).2.2 = (update initApp).2.2 :=
  update_deterministic initApp initApp rfl rfl rfl rfl rfl rfl rfl rfl

end Racing
